import Mathlib

/-!
# Verification of the song-graph concurrent enrichment orchestrator

Shallow embedding of the backend of the song-graph repository
(`src/backend/audio_features.py`, `src/backend/lyrics_fetch.py`,
`src/backend/sentiment_analysis.py`, `src/backend/main.py`).

Modelling conventions:

* A Python track dict is embedded as a `Track` structure over the schema of
  keys the backend reads or writes.  Each dict entry is an `Option`-wrapped
  field: the outer `Option` is key presence (`none` = the key is absent from
  the dict), and for keys whose value may be Python `None` the inner `Option`
  distinguishes `None` (`none`) from a real value.
* Python floats are embedded as real numbers `ℝ`.
* External collaborators (the network download + librosa call, the
  spotify-preview-finder lookup, the Genius `search_song` call, and the
  sentiment classifier wrapped by `analyze_sentiment`) are passed in as
  oracle parameters; every theorem quantifies over them, so it holds for the
  actual collaborators.  The result *shape* of each collaborator is taken
  from the source.
* Thread pools complete futures in a nondeterministic order; this is
  modelled by an explicit `order : List ℕ` parameter listing the indices in
  completion order.  Theorems quantify over every permutation.
-/

/-- Python truthiness of an optional string value (`None` and `""` are
falsy). -/
def optStrTruthy : Option String → Bool
  | some s => !s.isEmpty
  | none => false

/-- Python truthiness of a dict entry holding an optional string:
`key in track and track[key]`, or equivalently `bool(track.get(key))`. -/
def entryStrTruthy : Option (Option String) → Bool
  | some v => optStrTruthy v
  | none => false

/-- Whether an optional dict entry is *set*: the key is present and its value
is not Python `None`. -/
def isSetB {α : Type} : Option (Option α) → Bool
  | some (some _) => true
  | _ => false

/-- A track dict, over the schema of keys the backend touches.
Fields of type `Option (Option τ)` model dict keys whose value may be `None`;
fields of type `Option τ` model keys that are only ever written with a
non-`None` value (or only read). -/
structure Track where
  title : Option String := none
  artists : Option (List String) := none
  album : Option String := none
  preview_url : Option (Option String) := none
  track_id : Option (Option String) := none
  tempo : Option (Option ℝ) := none
  audio_features_error : Option (Option String) := none
  lyrics : Option (Option String) := none
  lyrics_source : Option (Option String) := none
  genius_url : Option (Option String) := none
  sentiment_score : Option (Option ℝ) := none
  sentiment_label : Option (Option String) := none
  sentiment_error : Option (Option String) := none
  sentiment_chunks : Option ℕ := none
  stanza_scores : Option (List ℝ) := none
  raw_sentiment : Option ℝ := none
  normalized_sentiment : Option ℝ := none

/-- The empty dict. -/
def emptyTrack : Track := {}

/-- One field of Python's `dict.update`: the updating dict's entry wins when
its key is present, otherwise the base entry is kept. -/
def mergeField {α : Type} : Option α → Option α → Option α
  | some v, _ => some v
  | none, b => b

/-- Python `base.update(u)` over the track schema: every key present in `u`
overwrites the corresponding key of `base`. -/
def dict_update (base u : Track) : Track where
  title := mergeField u.title base.title
  artists := mergeField u.artists base.artists
  album := mergeField u.album base.album
  preview_url := mergeField u.preview_url base.preview_url
  track_id := mergeField u.track_id base.track_id
  tempo := mergeField u.tempo base.tempo
  audio_features_error := mergeField u.audio_features_error base.audio_features_error
  lyrics := mergeField u.lyrics base.lyrics
  lyrics_source := mergeField u.lyrics_source base.lyrics_source
  genius_url := mergeField u.genius_url base.genius_url
  sentiment_score := mergeField u.sentiment_score base.sentiment_score
  sentiment_label := mergeField u.sentiment_label base.sentiment_label
  sentiment_error := mergeField u.sentiment_error base.sentiment_error
  sentiment_chunks := mergeField u.sentiment_chunks base.sentiment_chunks
  stanza_scores := mergeField u.stanza_scores base.stanza_scores
  raw_sentiment := mergeField u.raw_sentiment base.raw_sentiment
  normalized_sentiment := mergeField u.normalized_sentiment base.normalized_sentiment

/-! ## `src/backend/audio_features.py` -/

/-- Outcome of downloading a preview URL and running librosa on it
(`requests.get` + `librosa.load` + `librosa.beat.beat_track` in
`calculate_bpm_from_preview_url`): either a BPM float or a raised
exception carrying its `str(e)` text. -/
inductive DownloadOutcome : Type
  | ok (bpm : ℝ)
  | exc (msg : String)

/-- Python `s[:50]` on a string: the first 50 code points. -/
def pySlice50 (s : String) : String := String.mk (s.data.take 50)

/-- Embedding of `calculate_bpm_from_preview_url` (audio_features.py lines 40-84).
`outcome` is the oracle for the download + librosa analysis of a given URL.
Returns the `(bpm, error)` pair of the source.  The `finally` block only
removes the temp file and is not modelled. -/
def calculate_bpm_from_preview_url (outcome : String → DownloadOutcome)
    (preview_url : Option String) : Option ℝ × Option String :=
  if !optStrTruthy preview_url then (none, some "No preview URL available")
  else
    match outcome (preview_url.getD "") with
    | .ok bpm => (some bpm, none)
    | .exc e => (none, some ("Error: " ++ pySlice50 e))

/-- Embedding of `get_preview_url_with_finder` (audio_features.py lines 14-38): a network
lookup with every exception swallowed into `None`; modelled whole as an
oracle from (title, artist) to an optional URL. -/
def get_preview_url_with_finder (finder : String → String → Option String)
    (title artist : String) : Option String :=
  finder title artist

/-- The preview-URL resolution of `analyze_track_with_index`
(audio_features.py lines 98-106): `title = track_copy.get('title',
'Unknown')`, `artist = artists[0] if artists else 'Unknown'`,
`preview_url = track_copy.get('preview_url')`, falling back to
`get_preview_url_with_finder` when falsy and credentials exist. -/
def effective_preview_url (finder : String → String → Option String)
    (credentials_present : Bool) (track : Track) : Option String :=
  let title := (track.title).getD "Unknown"
  let artist := match track.artists with
    | some (a :: _) => a
    | _ => "Unknown"
  let preview_url : Option String := (track.preview_url).join
  if !optStrTruthy preview_url && credentials_present then
    get_preview_url_with_finder finder title artist
  else preview_url

/-- Embedding of `analyze_track_with_index` (audio_features.py lines 86-121): per-item
tempo transform.  `credentials_present` models `spotify_credentials` being
non-`None`; `track.copy()` is the identity in this functional model. -/
def analyze_track_with_index (outcome : String → DownloadOutcome)
    (finder : String → String → Option String) (credentials_present : Bool)
    (index : ℕ) (track : Track) : ℕ × Track :=
  if optStrTruthy (effective_preview_url finder credentials_present track) then
    match calculate_bpm_from_preview_url outcome
        (effective_preview_url finder credentials_present track) with
    | (some bpm, _) =>
        (index, { track with tempo := some (some bpm),
                             audio_features_error := some none })
    | (none, error) =>
        (index, { track with tempo := some none,
                             audio_features_error := some error })
  else
    (index, { track with tempo := some none,
                         audio_features_error :=
                           some (some "No preview URL available") })

/-! ### The fan-out/fan-in worker-pool skeleton

All three pools (`add_audio_features_to_tracks`, `fetch_lyrics_for_tracks`,
`add_sentiment_to_tracks`) share the same skeleton: submit
`(i, transform(tracks[i]))` for every index, collect `results_dict[index] =
updated_track` in completion order (`as_completed`), and finally return
`[results_dict[i] for i in range(len(tracks))]`.  `order` is the completion
order of the futures; a dict read that would raise `KeyError` is modelled by
`Option`. -/

/-- The `results_dict` built by the `as_completed` collection loop. -/
def pool_collect {α β : Type} (transform : ℕ → α → β) (items : List α)
    (order : List ℕ) : ℕ → Option β :=
  order.foldl
    (fun d i => fun j => if j = i then (items.get? i).map (transform i) else d j)
    (fun _ => none)

/-- The final `[results_dict[i] for i in range(len(tracks))]` comprehension. -/
def pool_output {α β : Type} (transform : ℕ → α → β) (items : List α)
    (order : List ℕ) : List (Option β) :=
  (List.range items.length).map (pool_collect transform items order)

/-- Embedding of `add_audio_features_to_tracks` (audio_features.py lines 123-177).
The `try/except` around `future.result()` is unreachable because the
per-item transform is total (every exception is handled inside
`analyze_track_with_index`). -/
def add_audio_features_to_tracks (outcome : String → DownloadOutcome)
    (finder : String → String → Option String) (credentials_present : Bool)
    (tracks : List Track) (order : List ℕ) : List (Option Track) :=
  if tracks.isEmpty then []
  else pool_output
    (fun i t => (analyze_track_with_index outcome finder credentials_present i t).2)
    tracks order

/-! ## `src/backend/lyrics_fetch.py` -/

/-- The object returned by `genius_client.search_song` when a song is found:
its `lyrics` attribute (possibly `None`) and its `url` attribute
(`song.url if hasattr(song, 'url') else None` is folded into an `Option`). -/
structure Song where
  lyrics : Option String
  url : Option String

/-- Python `str.strip()` over the code points of a string. -/
def pyStrip (s : String) : String :=
  String.mk
    (((s.data.dropWhile Char.isWhitespace).reverse.dropWhile
        Char.isWhitespace).reverse)

/-- The code points strictly before the first occurrence of `pat`
(`none` when `pat` does not occur): Python `s.split(pat)[0]` under the
guard `pat in s`. -/
def takeBeforeSub (pat : List Char) : List Char → Option (List Char)
  | [] => none
  | c :: rest =>
      if pat.isPrefixOf (c :: rest) then some []
      else (takeBeforeSub pat rest).map (c :: ·)

/-- The lyric clean-up of `fetch_lyrics_single` (lyrics_fetch.py lines
54-56): `lyrics.strip()`, then
`lyrics.split('Embed')[0].strip() if 'Embed' in lyrics else lyrics`. -/
def cleanLyrics (raw : String) : String :=
  let lyrics := pyStrip raw
  match takeBeforeSub "Embed".data lyrics.data with
  | some before => pyStrip (String.mk before)
  | none => lyrics

/-- Embedding of `fetch_lyrics_single` (lyrics_fetch.py lines 30-72).  `search` is the
Genius `search_song` oracle from (title, artist) to an optional `Song`; a
raised exception is modelled by the `none` result, since the `except` branch
writes the same fields as the not-found branch.  The rate-limiting
`time.sleep(0.1)` has no data effect. -/
def fetch_lyrics_single (search : String → String → Option Song)
    (track : Track) : Track :=
  let title := (track.title).getD ""
  let artist := match track.artists with
    | some (a :: _) => a
    | _ => ""
  -- `if 'lyrics' in track and track['lyrics']: return track`
  if entryStrTruthy track.lyrics then track
  else
    match search title artist with
    | some song =>
        match song.lyrics with
        | some rawLyrics =>
            if !rawLyrics.isEmpty then
              { track with lyrics := some (some (cleanLyrics rawLyrics)),
                           lyrics_source := some (some "genius"),
                           genius_url := some song.url }
            else
              { track with lyrics := some none, lyrics_source := some none }
        | none =>
            { track with lyrics := some none, lyrics_source := some none }
    | none =>
        { track with lyrics := some none, lyrics_source := some none }

/-- Embedding of `fetch_lyrics_for_tracks` (lyrics_fetch.py lines 74-119): the lyrics
worker pool; `fetch_with_index` submits `fetch_lyrics_single(track.copy())`
per index. -/
def fetch_lyrics_for_tracks (search : String → String → Option Song)
    (tracks : List Track) (order : List ℕ) : List (Option Track) :=
  pool_output (fun _ t => fetch_lyrics_single search t) tracks order

/-! ## `src/backend/sentiment_analysis.py` -/

/-- The result dict of `analyze_sentiment` (sentiment_analysis.py lines
90-177): every return path of that function produces exactly the keys
`sentiment_score` (a float or `None`), `sentiment_chunks` (an int) and
`stanza_scores` (a list of floats).  Its internals (regex preprocessing,
stanza splitting and the classifier calls) are opaque to every claim, so the
function itself is passed as an oracle of this result shape. -/
structure SentimentOut where
  sentiment_score : Option ℝ
  sentiment_chunks : ℕ
  stanza_scores : List ℝ

/-- The string actually analyzed: `lyrics = track.get('lyrics', '')`, with
`None` being falsy exactly like the `''` default. -/
def getLyricsStr (track : Track) : String :=
  match track.lyrics with
  | some (some s) => s
  | _ => ""

/-- Embedding of `analyze_sentiment_single` (sentiment_analysis.py lines 179-215).
`analyze` is `analyze_sentiment` with the classifier baked in; it is total,
so the source's `except` branch (which writes
`sentiment_score=None, sentiment_chunks=0, stanza_scores=[]`) is
unreachable. -/
def analyze_sentiment_single (analyze : String → SentimentOut)
    (track : Track) : Track :=
  -- `if 'sentiment_score' in track and track['sentiment_score'] is not None`
  if isSetB track.sentiment_score then track
  -- `if not lyrics:` on `lyrics = track.get('lyrics', '')`
  else if (getLyricsStr track).isEmpty then
    { track with sentiment_score := some none,
                 sentiment_chunks := some 0,
                 stanza_scores := some [] }
  else
    { track with
        sentiment_score := some (analyze (getLyricsStr track)).sentiment_score,
        sentiment_chunks := some (analyze (getLyricsStr track)).sentiment_chunks,
        stanza_scores := some (analyze (getLyricsStr track)).stanza_scores }

/-- Embedding of `add_sentiment_to_tracks` (sentiment_analysis.py lines 217-259): the
sentiment worker pool; `analyze_with_index` submits
`analyze_sentiment_single(track.copy())` per index. -/
def add_sentiment_to_tracks (analyze : String → SentimentOut)
    (tracks : List Track) (order : List ℕ) : List (Option Track) :=
  pool_output (fun _ t => analyze_sentiment_single analyze t) tracks order

/-! ## `src/backend/main.py` — parallel feature flow -/

/-- The per-item transform of the BPM branch of
`process_features_with_progress` (`run_bpm_pipeline`, main.py lines
366-388): `analyze_track_with_index(i, track, spotify_credentials)`. -/
def bpm_branch_transform (outcome : String → DownloadOutcome)
    (finder : String → String → Option String) (credentials_present : Bool)
    (i : ℕ) (track : Track) : Track :=
  (analyze_track_with_index outcome finder credentials_present i track).2

/-- The per-item transform of the lyrics-then-sentiment branch
(`process_sentiment_for_track`, main.py lines 397-402):
`analyze_sentiment_single(fetch_lyrics_single(track.copy()))`. -/
def sentiment_branch_transform (search : String → String → Option Song)
    (analyze : String → SentimentOut) (track : Track) : Track :=
  analyze_sentiment_single analyze (fetch_lyrics_single search track)

/-- The fan-in merge of `process_features_with_progress` (main.py lines
430-438):

```
for i in range(len(tracks)):
    track = tracks[i].copy()
    if i in bpm_results: track.update(bpm_results[i])
    if i in sentiment_results: track.update(sentiment_results[i])
    final_tracks.append(track)
```

`base` is the shared `tracks` list at join time.  (The two branch callbacks
`bpm_track_callback` / `sentiment_track_callback` replace whole slots of this
shared list while the branches run, so by the merge, `base[i]` is the
original item or either branch's copy of it, depending on the race; the
merge is modelled over an arbitrary `base`.)  `bpm_results` and
`sentiment_results` are the two branches' partial result dicts. -/
def process_features_merge (base : List Track)
    (bpm_results sentiment_results : ℕ → Option Track) : List Track :=
  (List.range base.length).map (fun i =>
    let track := base.getD i emptyTrack
    let track := match bpm_results i with
      | some u => dict_update track u
      | none => track
    match sentiment_results i with
    | some u => dict_update track u
    | none => track)

/-! ## `src/backend/main.py` — `normalize_sentiment_scores` -/

/-- Reading `t.get('sentiment_score')` as a float, `None`/absent collapsing to
`none` (the source only ever stores floats or `None` under this key). -/
def getScore (t : Track) : Option ℝ :=
  match t.sentiment_score with
  | some (some x) => some x
  | _ => none

/-- The comprehension `scores = [t.get('sentiment_score') for t in tracks if
t.get('sentiment_score') is not None]` (main.py lines 80-81). -/
def sentimentScores (tracks : List Track) : List ℝ :=
  tracks.filterMap getScore

/-- Embedding of `np.median(scores)`: sort; middle element for odd length, mean of the
two middle elements for even length. -/
noncomputable def npMedian (l : List ℝ) : ℝ :=
  let s := l.insertionSort (· ≤ ·)
  let n := l.length
  if n % 2 = 1 then s.getD (n / 2) 0
  else (s.getD (n / 2 - 1) 0 + s.getD (n / 2) 0) / 2

/-- Embedding of `np.percentile(scores, p)` with numpy's default linear interpolation:
the value at fractional position `p/100 * (n-1)` of the sorted list. -/
noncomputable def npPercentile (p : ℝ) (l : List ℝ) : ℝ :=
  let s := l.insertionSort (· ≤ ·)
  let pos := p / 100 * ((l.length : ℝ) - 1)
  let k := (⌊pos⌋).toNat
  let frac := pos - (k : ℝ)
  s.getD k 0 + frac * (s.getD (k + 1) (s.getD k 0) - s.getD k 0)

/-- The spread `q75 - q25` (main.py lines 89-90). -/
noncomputable def iqrOf (l : List ℝ) : ℝ := npPercentile 75 l - npPercentile 25 l

/-- Embedding of `normalize_sentiment_scores` (main.py lines 63-117).  The source mutates
the dicts in place and returns the same list; modelled functionally. -/
noncomputable def normalize_sentiment_scores (tracks : List Track) : List Track :=
  let scores := sentimentScores tracks
  if scores.length < 2 then tracks
  else
    let median := npMedian scores
    let iqr := iqrOf scores
    if iqr < 1e-6 then
      tracks.map (fun track =>
        match getScore track with
        | some s =>
            { track with raw_sentiment := some s,
                         normalized_sentiment := some (1/2),
                         sentiment_score := some (some (1/2)) }
        | none => track)
    else
      tracks.map (fun track =>
        match getScore track with
        | some s =>
            let z := (s - median) / iqr
            let normalized := 1 / (1 + Real.exp (-z))
            { track with raw_sentiment := some s,
                         normalized_sentiment := some normalized,
                         sentiment_score := some (some normalized) }
        | none => track)

/-! ## `src/backend/main.py` — the progress stream (`stream_progress`)

The SSE generator is a polling loop over `progress_store[job_id]`.  Each
poll observes a snapshot of the job entry (`Option Progress`, `none`
meaning the job id is not in the store); the generator is modelled as a
function from the finite sequence of observed snapshots to the list of
emitted events.  An exhausted snapshot list means the observation simply
ends while the loop is still polling (no further events observed). -/

/-- A snapshot of one `progress_store[job_id]` entry.  Fields the generator
reads with `progress.get(key, default)` are total here, with the default
folded in (the background tasks always populate them). -/
structure Progress where
  stage : String
  current : ℤ
  total : ℤ
  message : String
  tracks : List Track
  playlist_name : String
  output_file : String

/-- The generator's loop-local state (main.py lines 526-530). -/
structure PubState where
  bpmSent : List String
  sentimentSent : List String
  tracksSent : Bool
  lastStage : Option String
  lastCurrent : ℤ

/-- The initial state `last_stage = None; last_current = -1; last_bpm_updates = set();
last_sentiment_updates = set(); tracks_sent = False`. -/
def initPubState : PubState :=
  { bpmSent := [], sentimentSent := [], tracksSent := false,
    lastStage := none, lastCurrent := -1 }

/-- One SSE event.  `track_update` events are split by their `field` tag
(`'tempo'` / `'sentiment'`); `progress` events carry their optional
`tracks` / `playlist_name` / `output_file` payload members. -/
inductive Event : Type
  | tempo_update (track_id : String) (tempo : Option ℝ)
      (audio_features_error : Option String)
  | sentiment_update (track_id : String) (sentiment_score : Option ℝ)
      (sentiment_label : Option String) (sentiment_error : Option String)
  | progress (stage : String) (current total : ℤ) (message : String)
      (tracks : Option (List Track)) (playlist_name : Option String)
      (output_file : Option String)
  | jobError (message : String)

/-- The lookup `track_id = track.get('track_id'); if not track_id: continue` —
the id used for correlation, skipping falsy ids (absent, `None`, `""`). -/
def idOf (t : Track) : Option String :=
  match t.track_id with
  | some (some s) => if s.isEmpty then none else some s
  | _ => none

/-- The per-track BPM check of the scan loop (main.py lines 550-565). -/
def bpmCheck (tid : String) (t : Track) (st : PubState) :
    List Event × PubState :=
  if tid ∈ st.bpmSent then ([], st)
  else
    let tempo := t.tempo.join
    let audio_error := t.audio_features_error.join
    if tempo.isSome || optStrTruthy audio_error then
      ([Event.tempo_update tid tempo audio_error],
       { st with bpmSent := tid :: st.bpmSent })
    else ([], st)

/-- The per-track sentiment check of the scan loop (main.py lines
567-584). -/
def sentimentCheck (tid : String) (t : Track) (st : PubState) :
    List Event × PubState :=
  if tid ∈ st.sentimentSent then ([], st)
  else
    let sentiment_score := t.sentiment_score.join
    let sentiment_error := t.sentiment_error.join
    if sentiment_score.isSome || optStrTruthy sentiment_error then
      ([Event.sentiment_update tid sentiment_score (t.sentiment_label.join)
          sentiment_error],
       { st with sentimentSent := tid :: st.sentimentSent })
    else ([], st)

/-- The `for i, track in enumerate(tracks)` scan (main.py lines 543-584). -/
def scan_tracks : List Track → PubState → List Event × PubState
  | [], st => ([], st)
  | t :: rest, st =>
      match idOf t with
      | none => scan_tracks rest st
      | some tid =>
          let r1 := bpmCheck tid t st
          let r2 := sentimentCheck tid t r1.2
          let r3 := scan_tracks rest r2.2
          (r1.1 ++ r2.1 ++ r3.1, r3.2)

/-- The initial-tracks / stage-change event block (main.py lines 586-614). -/
def progress_events (p : Progress) (st : PubState) : List Event × PubState :=
  if !p.tracks.isEmpty && !st.tracksSent then
    ([Event.progress (if p.stage.isEmpty then "tracks" else p.stage)
        p.current (p.tracks.length : ℤ) p.message (some p.tracks)
        (some p.playlist_name) none],
     { st with tracksSent := true, lastStage := some p.stage,
               lastCurrent := p.current })
  else if some p.stage ≠ st.lastStage ∨ p.current ≠ st.lastCurrent then
    ([Event.progress p.stage p.current p.total p.message none none none],
     { st with lastStage := some p.stage, lastCurrent := p.current })
  else ([], st)

/-- The final `complete_data` event (main.py lines 618-629). -/
def finalEvent (p : Progress) : Event :=
  Event.progress p.stage p.current p.total p.message (some p.tracks)
    (some p.playlist_name) (some p.output_file)

/-- One iteration of the `while True` loop body on a present snapshot:
scan for track updates, then the progress block, then the terminal check
(main.py lines 537-632).  The returned `Bool` is whether the loop
`break`s. -/
def stream_iteration (p : Progress) (st : PubState) :
    List Event × PubState × Bool :=
  let r1 := scan_tracks p.tracks st
  let r2 := progress_events p r1.2
  if p.stage = "complete" ∨ p.stage = "error" then
    (r1.1 ++ r2.1 ++ [finalEvent p], r2.2, true)
  else (r1.1 ++ r2.1, r2.2, false)

/-- The whole generator over the sequence of observed snapshots.  A `none`
snapshot is `job_id not in progress_store`: one error event, then
`break`. -/
def stream_progress : List (Option Progress) → PubState → List Event
  | [], _ => []
  | none :: _, _ => [Event.jobError "Job not found"]
  | some p :: rest, st =>
      let r := stream_iteration p st
      if r.2.2 then r.1 else r.1 ++ stream_progress rest r.2.1

/-! ## Worker-pool lemmas -/

theorem pool_collect_eq {α β : Type} (transform : ℕ → α → β) (items : List α)
    (order : List ℕ) (d : ℕ → Option β) (j : ℕ) :
    (order.foldl
      (fun d i => fun j => if j = i then (items.get? i).map (transform i) else d j)
      d) j
      = if j ∈ order then (items.get? j).map (transform j) else d j := by
  induction order generalizing d with
  | nil => simp
  | cons i rest ih =>
      simp only [List.foldl_cons, ih, List.mem_cons]
      by_cases hj : j ∈ rest
      · simp [hj]
      · by_cases hji : j = i <;> simp [hj, hji]

theorem pool_collect_lookup {α β : Type} (transform : ℕ → α → β)
    (items : List α) (order : List ℕ) (j : ℕ) :
    pool_collect transform items order j
      = if j ∈ order then (items.get? j).map (transform j) else none := by
  unfold pool_collect
  exact pool_collect_eq transform items order _ j

theorem pool_output_length {α β : Type} (transform : ℕ → α → β)
    (items : List α) (order : List ℕ) :
    (pool_output transform items order).length = items.length := by
  simp [pool_output]

theorem pool_output_get {α β : Type} (transform : ℕ → α → β) (items : List α)
    (order : List ℕ) (h : order.Perm (List.range items.length))
    (i : ℕ) (a : α) (ha : items.get? i = some a) :
    (pool_output transform items order).get? i = some (some (transform i a)) := by
  have hi : i < items.length := by
    by_contra hlt
    rw [List.get?_eq_none.2 (Nat.le_of_not_lt hlt)] at ha
    exact Option.noConfusion ha
  have hmem : i ∈ order := h.mem_iff.2 (List.mem_range.2 hi)
  unfold pool_output
  rw [List.get?_eq_getElem?] at ha
  rw [List.get?_eq_getElem?, List.getElem?_map, List.getElem?_range hi]
  simp only [Option.map_some', pool_collect_lookup, if_pos hmem,
    List.get?_eq_getElem?, ha, Option.map]

/-- C2: worker-pool index stability.  For every non-empty input and every
completion order (a permutation of the indices), each of the three pools
returns a list of the input's length whose element at position `i` is the
per-item enrichment of input item `i`. -/
theorem worker_pool_index_stability
    (outcome : String → DownloadOutcome)
    (finder : String → String → Option String) (credentials_present : Bool)
    (search : String → String → Option Song) (analyze : String → SentimentOut)
    (tracks : List Track) (order : List ℕ)
    (hne : tracks ≠ [])
    (hperm : order.Perm (List.range tracks.length)) :
    ((add_audio_features_to_tracks outcome finder credentials_present tracks
        order).length = tracks.length
      ∧ ∀ i t, tracks.get? i = some t →
          (add_audio_features_to_tracks outcome finder credentials_present
            tracks order).get? i
            = some (some
                (analyze_track_with_index outcome finder credentials_present
                  i t).2))
    ∧ ((fetch_lyrics_for_tracks search tracks order).length = tracks.length
      ∧ ∀ i t, tracks.get? i = some t →
          (fetch_lyrics_for_tracks search tracks order).get? i
            = some (some (fetch_lyrics_single search t)))
    ∧ ((add_sentiment_to_tracks analyze tracks order).length = tracks.length
      ∧ ∀ i t, tracks.get? i = some t →
          (add_sentiment_to_tracks analyze tracks order).get? i
            = some (some (analyze_sentiment_single analyze t))) := by
  have hempty : ¬ tracks.isEmpty := by
    cases tracks with
    | nil => exact absurd rfl hne
    | cons t ts => simp
  refine ⟨⟨?_, ?_⟩, ⟨?_, ?_⟩, ?_, ?_⟩
  · rw [add_audio_features_to_tracks, if_neg hempty]; exact pool_output_length ..
  · intro i t ht
    rw [add_audio_features_to_tracks, if_neg hempty]
    exact pool_output_get _ tracks order hperm i t ht
  · exact pool_output_length ..
  · intro i t ht
    exact pool_output_get _ tracks order hperm i t ht
  · exact pool_output_length ..
  · intro i t ht
    exact pool_output_get _ tracks order hperm i t ht

/-! ## Concrete collaborators used by witnesses -/

def outcomeW : String → DownloadOutcome := fun _ => .ok 120

def finderW : String → String → Option String := fun _ _ => none

def searchW : String → String → Option Song :=
  fun _ _ => some { lyrics := some "la la", url := some "http://g" }

def analyzeW : String → SentimentOut :=
  fun _ => { sentiment_score := some 1, sentiment_chunks := 1,
             stanza_scores := [1] }

def wt0 : Track :=
  { title := some "Song A", artists := some ["Artist A"],
    track_id := some (some "idA"), preview_url := some (some "urlA") }

def wt1 : Track :=
  { title := some "Song B", artists := some ["Artist B"],
    track_id := some (some "idB") }

/-- Witness for C2: a two-track input processed with completion order
`[1, 0]` (reversed) still comes back in input order, enriched per item. -/
theorem worker_pool_index_stability_witness :
    (add_audio_features_to_tracks outcomeW finderW true [wt0, wt1]
        [1, 0]).get? 0
      = some (some { wt0 with tempo := some (some 120),
                              audio_features_error := some none })
    ∧ (fetch_lyrics_for_tracks searchW [wt0, wt1] [1, 0]).get? 1
      = some (some { wt1 with lyrics := some (some "la la"),
                              lyrics_source := some (some "genius"),
                              genius_url := some (some "http://g") })
    ∧ (add_sentiment_to_tracks analyzeW [wt0, wt1] [1, 0]).get? 1
      = some (some { wt1 with sentiment_score := some none,
                              sentiment_chunks := some 0,
                              stanza_scores := some [] }) := by
  have h := worker_pool_index_stability outcomeW finderW true searchW analyzeW
    [wt0, wt1] [1, 0] (by simp) (by decide)
  exact ⟨(h.1.2 0 wt0 rfl).trans (by rfl),
         (h.2.1.2 1 wt1 rfl).trans (by rfl),
         (h.2.2.2 1 wt1 rfl).trans (by rfl)⟩

/-! ## Shape lemmas for the per-item tempo transform -/

/-- Lemma: `calculate_bpm_from_preview_url` returns either a BPM with no error or
no BPM with a non-`None` error message. -/
theorem calculate_bpm_cases (outcome : String → DownloadOutcome)
    (url : Option String) :
    (∃ bpm, calculate_bpm_from_preview_url outcome url = (some bpm, none))
    ∨ (∃ msg, calculate_bpm_from_preview_url outcome url = (none, some msg)) := by
  unfold calculate_bpm_from_preview_url
  by_cases h : optStrTruthy url
  · simp only [h, Bool.not_true, Bool.false_eq_true, if_false]
    cases outcome (url.getD "") with
    | ok bpm => exact Or.inl ⟨bpm, rfl⟩
    | exc e => exact Or.inr ⟨_, rfl⟩
  · simp only [Bool.not_eq_true] at h
    simp [h]

/-- Lemma: `analyze_track_with_index` returns its index unchanged and writes either
a BPM (`audio_features_error = None`) or `tempo = None` with a non-`None`
error message; all other fields are untouched. -/
theorem analyze_track_with_index_cases (outcome : String → DownloadOutcome)
    (finder : String → String → Option String) (credentials_present : Bool)
    (i : ℕ) (t : Track) :
    (analyze_track_with_index outcome finder credentials_present i t).1 = i
    ∧ ((∃ bpm, (analyze_track_with_index outcome finder credentials_present
          i t).2
        = { t with tempo := some (some bpm), audio_features_error := some none })
      ∨ (∃ msg, (analyze_track_with_index outcome finder credentials_present
          i t).2
        = { t with tempo := some none,
                   audio_features_error := some (some msg) })) := by
  unfold analyze_track_with_index
  by_cases h : optStrTruthy (effective_preview_url finder credentials_present t)
      = true
  · simp only [h, if_true]
    rcases calculate_bpm_cases outcome
        (effective_preview_url finder credentials_present t) with
      ⟨bpm, hc⟩ | ⟨msg, hc⟩ <;> rw [hc]
    · exact ⟨by trivial, Or.inl ⟨bpm, rfl⟩⟩
    · exact ⟨by trivial, Or.inr ⟨msg, rfl⟩⟩
  · rw [Bool.not_eq_true] at h
    simp only [h, Bool.false_eq_true, if_false]
    exact ⟨by trivial, Or.inr ⟨"No preview URL available", rfl⟩⟩

theorem sanity_calculate_bpm_no_url :
    calculate_bpm_from_preview_url (fun _ => .ok 1) none
      = (none, some "No preview URL available") := rfl

/-! ## C3: exactly-one-of result/error -/

/-- Lemma: `analyze_sentiment_single` never writes `sentiment_error`: the key is
left exactly as in the input track on every branch. -/
theorem analyze_sentiment_single_error_preserved
    (analyze : String → SentimentOut) (t : Track) :
    (analyze_sentiment_single analyze t).sentiment_error = t.sentiment_error := by
  unfold analyze_sentiment_single
  split
  · rfl
  · split <;> rfl

/-- C3 (amended): after the tempo transform exactly one of
`{tempo, audio_features_error}` is set; after the sentiment transform
`sentiment_error` is exactly the input's (the stage never writes it), so
when the input has no `sentiment_error` at most one of
`{sentiment_score, sentiment_error}` is set — and a track without usable
lyrics has neither. -/
theorem tempo_exactly_one_sentiment_at_most_one :
    (∀ (outcome : String → DownloadOutcome)
      (finder : String → String → Option String) (credentials_present : Bool)
      (i : ℕ) (t : Track),
      (isSetB ((analyze_track_with_index outcome finder credentials_present
            i t).2).tempo = true
        ∧ isSetB ((analyze_track_with_index outcome finder credentials_present
            i t).2).audio_features_error = false)
      ∨ (isSetB ((analyze_track_with_index outcome finder credentials_present
            i t).2).tempo = false
        ∧ isSetB ((analyze_track_with_index outcome finder credentials_present
            i t).2).audio_features_error = true))
    ∧ (∀ (analyze : String → SentimentOut) (t : Track),
      (analyze_sentiment_single analyze t).sentiment_error = t.sentiment_error
      ∧ (isSetB t.sentiment_error = false →
        ¬(isSetB (analyze_sentiment_single analyze t).sentiment_score = true
          ∧ isSetB (analyze_sentiment_single analyze t).sentiment_error
              = true))) := by
  constructor
  · intro outcome finder credentials_present i t
    rcases (analyze_track_with_index_cases outcome finder credentials_present
        i t).2 with ⟨bpm, h⟩ | ⟨msg, h⟩ <;> rw [h]
    · exact Or.inl ⟨rfl, rfl⟩
    · exact Or.inr ⟨rfl, rfl⟩
  · intro analyze t
    have hpres := analyze_sentiment_single_error_preserved analyze t
    refine ⟨hpres, fun hf hc => ?_⟩
    rw [hpres, hf] at hc
    exact Bool.false_ne_true hc.2

/-- A track with no lyrics and no sentiment fields yet. -/
def noLyricsTrack : Track := { title := some "T", track_id := some (some "id0") }

/-- Counterexample to C3 as stated: after the sentiment stage a track with
no usable lyrics ends with `sentiment_score = None` and no
`sentiment_error` — *neither* of the pair is set, refuting
"exactly one ... never neither". -/
theorem sentiment_exactly_one_counterexample :
    (add_sentiment_to_tracks analyzeW [noLyricsTrack] [0]).get? 0
      = some (some (analyze_sentiment_single analyzeW noLyricsTrack))
    ∧ ((isSetB (analyze_sentiment_single analyzeW
          noLyricsTrack).sentiment_score).xor
        (isSetB (analyze_sentiment_single analyzeW
          noLyricsTrack).sentiment_error)) = false := by
  exact ⟨rfl, by decide⟩

/-- Witness for the amended C3 at concrete inputs. -/
theorem tempo_exactly_one_sentiment_at_most_one_witness :
    ((isSetB ((analyze_track_with_index outcomeW finderW true 0 wt0).2).tempo
        = true
      ∧ isSetB ((analyze_track_with_index outcomeW finderW true 0
          wt0).2).audio_features_error = false)
    ∨ (isSetB ((analyze_track_with_index outcomeW finderW true 0 wt0).2).tempo
        = false
      ∧ isSetB ((analyze_track_with_index outcomeW finderW true 0
          wt0).2).audio_features_error = true))
    ∧ ¬(isSetB (analyze_sentiment_single analyzeW noLyricsTrack).sentiment_score
          = true
        ∧ isSetB (analyze_sentiment_single analyzeW noLyricsTrack).sentiment_error
          = true) := by
  have h := tempo_exactly_one_sentiment_at_most_one
  exact ⟨h.1 outcomeW finderW true 0 wt0,
         (h.2 analyzeW noLyricsTrack).2 (by decide)⟩

/-! ## C9: per-item error capture with truncation -/

/-- A 60-character exception text. -/
def longExc : String := String.mk (List.replicate 60 'a')

/-- Counterexample to C9 as stated: a 60-character exception text produces
an `audio_features_error` message of length 57, which exceeds the claimed
50-character cap (only the exception text itself is truncated to 50; the
`"Error: "` prefix adds 7 more). -/
theorem bpm_error_truncation_counterexample :
    ((calculate_bpm_from_preview_url (fun _ => .exc longExc)
        (some "u")).2.getD "").length = 57
    ∧ 50 < ((calculate_bpm_from_preview_url (fun _ => .exc longExc)
        (some "u")).2.getD "").length := by
  exact ⟨by decide, by decide⟩

/-- C9 (amended): a failing per-item tempo computation is converted into
the `(bpm=None, error)` pair with message `"Error: " + str(e)[:50]` of
length at most 57, and the failure aborts neither sibling items nor the
pool: every position of the pool output is still the per-item enrichment
of the corresponding input. -/
theorem bpm_item_error_capture (outcome : String → DownloadOutcome)
    (url : Option String) (e : String)
    (hurl : optStrTruthy url = true)
    (hexc : outcome (url.getD "") = .exc e) :
    calculate_bpm_from_preview_url outcome url
      = (none, some ("Error: " ++ pySlice50 e))
    ∧ ("Error: " ++ pySlice50 e).length ≤ 57
    ∧ ∀ (finder : String → String → Option String) (credentials_present : Bool)
        (tracks : List Track) (order : List ℕ),
        order.Perm (List.range tracks.length) →
        ∀ j t, tracks.get? j = some t →
          (add_audio_features_to_tracks outcome finder credentials_present
            tracks order).get? j
            = some (some (analyze_track_with_index outcome finder
                credentials_present j t).2) := by
  refine ⟨?_, ?_, ?_⟩
  · unfold calculate_bpm_from_preview_url
    rw [hurl, hexc]
    simp only [Bool.not_true, Bool.false_eq_true, if_false]
  · have hlen : (pySlice50 e).length ≤ 50 := by
      show (e.data.take 50).length ≤ 50
      exact (List.length_take 50 e.data) ▸ min_le_left _ _
    calc ("Error: " ++ pySlice50 e).length
        = 7 + (pySlice50 e).length := by
          rw [String.length_append, show "Error: ".length = 7 from rfl]
      _ ≤ 7 + 50 := by omega
      _ = 57 := rfl
  · intro finder credentials_present tracks order hperm j t ht
    have hne : ¬ tracks.isEmpty := by
      cases tracks with
      | nil => exact absurd ht (by simp)
      | cons a l => simp
    rw [add_audio_features_to_tracks, if_neg hne]
    exact pool_output_get _ tracks order hperm j t ht

/-- Witness for the amended C9 at concrete inputs. -/
theorem bpm_item_error_capture_witness :
    calculate_bpm_from_preview_url (fun _ => .exc longExc) (some "u")
      = (none, some ("Error: " ++ pySlice50 longExc))
    ∧ ("Error: " ++ pySlice50 longExc).length ≤ 57
    ∧ (add_audio_features_to_tracks (fun _ => .exc longExc) finderW true
        [wt0, wt1] [1, 0]).get? 1
      = some (some (analyze_track_with_index (fun _ => .exc longExc) finderW
          true 1 wt1).2) := by
  have h := bpm_item_error_capture (fun _ => .exc longExc) (some "u") longExc
    (by decide) rfl
  exact ⟨h.1, h.2.1, h.2.2 finderW true [wt0, wt1] [1, 0] (by decide) 1 wt1 rfl⟩

/-! ## C10: single-item enrichment idempotence -/

/-- The skip guard of `fetch_lyrics_single`: a track whose `lyrics` entry is
already truthy is returned unchanged. -/
theorem fetch_lyrics_single_skip (search : String → String → Option Song)
    (t : Track) (h : entryStrTruthy t.lyrics = true) :
    fetch_lyrics_single search t = t := by
  simp only [fetch_lyrics_single, h, if_true]

/-- The skip guard of `analyze_sentiment_single`: a track whose
`sentiment_score` entry is already set is returned unchanged. -/
theorem analyze_sentiment_single_skip (analyze : String → SentimentOut)
    (t : Track) (h : isSetB t.sentiment_score = true) :
    analyze_sentiment_single analyze t = t := by
  simp only [analyze_sentiment_single, h, if_true]

/-- The non-skip unfolding of `fetch_lyrics_single`. -/
theorem fetch_lyrics_single_not_skip (search : String → String → Option Song)
    (t : Track) (h : entryStrTruthy t.lyrics = false) :
    fetch_lyrics_single search t =
      match search ((t.title).getD "")
          (match t.artists with | some (a :: _) => a | _ => "") with
      | some song =>
          match song.lyrics with
          | some rawLyrics =>
              if !rawLyrics.isEmpty then
                { t with lyrics := some (some (cleanLyrics rawLyrics)),
                         lyrics_source := some (some "genius"),
                         genius_url := some song.url }
              else
                { t with lyrics := some none, lyrics_source := some none }
          | none => { t with lyrics := some none, lyrics_source := some none }
      | none => { t with lyrics := some none, lyrics_source := some none } := by
  simp only [fetch_lyrics_single, h, Bool.false_eq_true, if_false]

/-- Lemma: `fetch_lyrics_single` is idempotent. -/
theorem fetch_lyrics_single_idem (search : String → String → Option Song)
    (t : Track) :
    fetch_lyrics_single search (fetch_lyrics_single search t)
      = fetch_lyrics_single search t := by
  by_cases h : entryStrTruthy t.lyrics = true
  · rw [fetch_lyrics_single_skip search t h, fetch_lyrics_single_skip search t h]
  · rw [Bool.not_eq_true] at h
    rw [fetch_lyrics_single_not_skip search t h]
    cases hs : search ((t.title).getD "")
        (match t.artists with | some (a :: _) => a | _ => "") with
    | none =>
        dsimp only
        simp only [fetch_lyrics_single, entryStrTruthy, optStrTruthy, hs,
          Bool.not_true, Bool.not_false, Bool.false_eq_true, if_false, if_true]
    | some song =>
        dsimp only
        cases hly : song.lyrics with
        | none =>
            dsimp only
            simp only [fetch_lyrics_single, entryStrTruthy, optStrTruthy, hs,
              hly, Bool.not_true, Bool.not_false, Bool.false_eq_true, if_false,
              if_true]
        | some rawLyrics =>
            dsimp only
            by_cases hne : rawLyrics.isEmpty = true
            · simp only [hne, Bool.not_true, Bool.false_eq_true, if_false]
              simp only [fetch_lyrics_single, entryStrTruthy, optStrTruthy, hs,
                hly, hne, Bool.not_true, Bool.false_eq_true, if_false]
            · rw [Bool.not_eq_true] at hne
              simp only [hne, Bool.not_false, if_true]
              by_cases hclean : (cleanLyrics rawLyrics).isEmpty = true
              · simp only [fetch_lyrics_single, entryStrTruthy, optStrTruthy,
                  hclean, hs, hly, hne, Bool.not_true, Bool.not_false,
                  Bool.false_eq_true, if_false, if_true]
              · rw [Bool.not_eq_true] at hclean
                rw [fetch_lyrics_single_skip search _
                    (by simp [entryStrTruthy, optStrTruthy, hclean])]

/-- Lemma: `analyze_sentiment_single` is idempotent. -/
theorem analyze_sentiment_single_idem (analyze : String → SentimentOut)
    (t : Track) :
    analyze_sentiment_single analyze (analyze_sentiment_single analyze t)
      = analyze_sentiment_single analyze t := by
  by_cases h : isSetB t.sentiment_score = true
  · rw [analyze_sentiment_single_skip analyze t h,
        analyze_sentiment_single_skip analyze t h]
  · rw [Bool.not_eq_true] at h
    by_cases h2 : (getLyricsStr t).isEmpty = true
    · have h1 : analyze_sentiment_single analyze t
          = { t with sentiment_score := some none, sentiment_chunks := some 0,
                     stanza_scores := some [] } := by
        simp only [analyze_sentiment_single, h, Bool.false_eq_true, if_false,
          h2, if_true]
      rw [h1]
      simp only [getLyricsStr] at h2
      simp only [analyze_sentiment_single, isSetB, getLyricsStr, h2, if_true,
        Bool.false_eq_true, if_false]
    · have h1 : analyze_sentiment_single analyze t
          = { t with
              sentiment_score := some (analyze (getLyricsStr t)).sentiment_score,
              sentiment_chunks :=
                some (analyze (getLyricsStr t)).sentiment_chunks,
              stanza_scores := some (analyze (getLyricsStr t)).stanza_scores }
          := by
        simp only [analyze_sentiment_single, h, h2, Bool.false_eq_true,
          if_false]
      rw [h1]
      cases hos : (analyze (getLyricsStr t)).sentiment_score with
      | some x =>
          exact analyze_sentiment_single_skip analyze _ (by simp [isSetB, hos])
      | none =>
          rw [Bool.not_eq_true] at h2
          simp only [getLyricsStr] at h2 hos
          simp only [analyze_sentiment_single, isSetB, getLyricsStr, hos, h2,
            Bool.false_eq_true, if_false, if_true]

/-- C10: a track with non-empty lyrics is returned unchanged by
`fetch_lyrics_single`; a track with a non-`None` `sentiment_score` is
returned unchanged by `analyze_sentiment_single`; and both single-item
enrichments are idempotent. -/
theorem single_item_enrichment_idempotent :
    (∀ (search : String → String → Option Song) (t : Track),
      entryStrTruthy t.lyrics = true → fetch_lyrics_single search t = t)
    ∧ (∀ (analyze : String → SentimentOut) (t : Track),
      isSetB t.sentiment_score = true → analyze_sentiment_single analyze t = t)
    ∧ (∀ (search : String → String → Option Song) (t : Track),
      fetch_lyrics_single search (fetch_lyrics_single search t)
        = fetch_lyrics_single search t)
    ∧ (∀ (analyze : String → SentimentOut) (t : Track),
      analyze_sentiment_single analyze (analyze_sentiment_single analyze t)
        = analyze_sentiment_single analyze t) :=
  ⟨fetch_lyrics_single_skip, analyze_sentiment_single_skip,
   fetch_lyrics_single_idem, analyze_sentiment_single_idem⟩

/-- A track that already carries lyrics and a sentiment score. -/
def enrichedTrack : Track :=
  { title := some "Song C", artists := some ["Artist C"],
    track_id := some (some "idC"), lyrics := some (some "already here"),
    sentiment_score := some (some 1) }

/-- Witness for C10 at concrete inputs. -/
theorem single_item_enrichment_idempotent_witness :
    fetch_lyrics_single searchW enrichedTrack = enrichedTrack
    ∧ analyze_sentiment_single analyzeW enrichedTrack = enrichedTrack
    ∧ fetch_lyrics_single searchW (fetch_lyrics_single searchW wt1)
        = fetch_lyrics_single searchW wt1
    ∧ analyze_sentiment_single analyzeW (analyze_sentiment_single analyzeW wt1)
        = analyze_sentiment_single analyzeW wt1 := by
  have h := single_item_enrichment_idempotent
  exact ⟨h.1 searchW enrichedTrack (by decide),
         h.2.1 analyzeW enrichedTrack (by decide),
         h.2.2.1 searchW wt1, h.2.2.2 analyzeW wt1⟩

/-! ## C1: parallel-branch merge safety -/

theorem mergeField_some {α : Type} (v : α) (b : Option α) :
    mergeField (some v) b = some v := rfl

theorem mergeField_none {α : Type} (b : Option α) :
    mergeField none b = b := rfl

/-- Lemma: `fetch_lyrics_single` never touches the tempo fields. -/
theorem fetch_lyrics_single_keeps_tempo
    (search : String → String → Option Song) (t : Track) :
    (fetch_lyrics_single search t).tempo = t.tempo
    ∧ (fetch_lyrics_single search t).audio_features_error
        = t.audio_features_error := by
  unfold fetch_lyrics_single
  dsimp only
  split
  · exact ⟨rfl, rfl⟩
  · split
    · split
      · split <;> exact ⟨rfl, rfl⟩
      · exact ⟨rfl, rfl⟩
    · exact ⟨rfl, rfl⟩

/-- Lemma: `analyze_sentiment_single` never touches the tempo fields or the
lyrics. -/
theorem analyze_sentiment_single_keeps
    (analyze : String → SentimentOut) (t : Track) :
    (analyze_sentiment_single analyze t).tempo = t.tempo
    ∧ (analyze_sentiment_single analyze t).audio_features_error
        = t.audio_features_error
    ∧ (analyze_sentiment_single analyze t).lyrics = t.lyrics := by
  unfold analyze_sentiment_single
  split
  · exact ⟨rfl, rfl, rfl⟩
  · split <;> exact ⟨rfl, rfl, rfl⟩

/-- After `fetch_lyrics_single` the `lyrics` key is always present. -/
theorem fetch_lyrics_single_lyrics_present
    (search : String → String → Option Song) (t : Track) :
    ∃ v, (fetch_lyrics_single search t).lyrics = some v := by
  by_cases h : entryStrTruthy t.lyrics = true
  · rw [fetch_lyrics_single_skip search t h]
    cases hl : t.lyrics with
    | some v => exact ⟨v, rfl⟩
    | none => rw [hl] at h; exact absurd h (by simp [entryStrTruthy])
  · rw [Bool.not_eq_true] at h
    rw [fetch_lyrics_single_not_skip search t h]
    split
    · split
      · split
        · exact ⟨_, rfl⟩
        · exact ⟨_, rfl⟩
      · exact ⟨_, rfl⟩
    · exact ⟨_, rfl⟩

/-- After `analyze_sentiment_single` the `sentiment_score` key is always
present. -/
theorem analyze_sentiment_single_score_present
    (analyze : String → SentimentOut) (t : Track) :
    ∃ v, (analyze_sentiment_single analyze t).sentiment_score = some v := by
  unfold analyze_sentiment_single
  split
  · rename_i h
    cases hsc : t.sentiment_score with
    | some v => exact ⟨v, rfl⟩
    | none => rw [hsc] at h; exact absurd h (by simp [isSetB])
  · split
    · exact ⟨_, rfl⟩
    · exact ⟨_, rfl⟩

/-- The element of the fan-in merge at an in-range index where both
branches delivered a result. -/
theorem process_features_merge_get (base : List Track)
    (bpmRes sentRes : ℕ → Option Track) (i : ℕ) (hi : i < base.length)
    (u1 u2 : Track) (hb : bpmRes i = some u1) (hs : sentRes i = some u2) :
    (process_features_merge base bpmRes sentRes).get? i
      = some (dict_update (dict_update (base.getD i emptyTrack) u1) u2) := by
  unfold process_features_merge
  rw [List.get?_eq_getElem?, List.getElem?_map, List.getElem?_range hi]
  simp only [Option.map_some', hb, hs]

/-- C1 (amended): in the parallel flow, provided the input track does not
already carry a `tempo` or `audio_features_error` key, the merged track at
its index combines both branches: the tempo fields are exactly the tempo
branch's and the `lyrics`/`sentiment_score` fields are exactly the
lyrics-then-sentiment branch's, for any state `base` of the shared list at
join time. -/
theorem parallel_branch_merge_safety (outcome : String → DownloadOutcome)
    (finder : String → String → Option String) (credentials_present : Bool)
    (search : String → String → Option Song) (analyze : String → SentimentOut)
    (base : List Track) (bpmRes sentRes : ℕ → Option Track) (i : ℕ)
    (t : Track) (hi : i < base.length)
    (htempo : t.tempo = none) (hafe : t.audio_features_error = none)
    (hb : bpmRes i
      = some (bpm_branch_transform outcome finder credentials_present i t))
    (hs : sentRes i = some (sentiment_branch_transform search analyze t)) :
    ∃ e, (process_features_merge base bpmRes sentRes).get? i = some e
      ∧ e.tempo
          = (bpm_branch_transform outcome finder credentials_present i t).tempo
      ∧ e.audio_features_error
          = (bpm_branch_transform outcome finder credentials_present
              i t).audio_features_error
      ∧ e.lyrics = (sentiment_branch_transform search analyze t).lyrics
      ∧ e.sentiment_score
          = (sentiment_branch_transform search analyze t).sentiment_score := by
  refine ⟨_, process_features_merge_get base bpmRes sentRes i hi _ _ hb hs,
    ?_, ?_, ?_, ?_⟩
  · show mergeField (sentiment_branch_transform search analyze t).tempo _
      = _
    have h1 : (sentiment_branch_transform search analyze t).tempo = none := by
      unfold sentiment_branch_transform
      rw [(analyze_sentiment_single_keeps analyze _).1,
        (fetch_lyrics_single_keeps_tempo search t).1, htempo]
    rw [h1, mergeField_none]
    rcases (analyze_track_with_index_cases outcome finder credentials_present
        i t).2 with ⟨bpm, hcase⟩ | ⟨msg, hcase⟩ <;>
      · show mergeField
            (bpm_branch_transform outcome finder credentials_present i t).tempo
            _ = _
        unfold bpm_branch_transform
        rw [hcase]
        rfl
  · show mergeField
        (sentiment_branch_transform search analyze t).audio_features_error _
      = _
    have h1 : (sentiment_branch_transform search analyze
        t).audio_features_error = none := by
      unfold sentiment_branch_transform
      rw [(analyze_sentiment_single_keeps analyze _).2.1,
        (fetch_lyrics_single_keeps_tempo search t).2, hafe]
    rw [h1, mergeField_none]
    rcases (analyze_track_with_index_cases outcome finder credentials_present
        i t).2 with ⟨bpm, hcase⟩ | ⟨msg, hcase⟩ <;>
      · show mergeField (bpm_branch_transform outcome finder
            credentials_present i t).audio_features_error _ = _
        unfold bpm_branch_transform
        rw [hcase]
        rfl
  · show mergeField (sentiment_branch_transform search analyze t).lyrics _ = _
    have h1 : ∃ v, (sentiment_branch_transform search analyze t).lyrics
        = some v := by
      unfold sentiment_branch_transform
      rw [(analyze_sentiment_single_keeps analyze _).2.2]
      exact fetch_lyrics_single_lyrics_present search t
    obtain ⟨v, hv⟩ := h1
    rw [hv, mergeField_some]
  · show mergeField
        (sentiment_branch_transform search analyze t).sentiment_score _ = _
    obtain ⟨v, hv⟩ := analyze_sentiment_single_score_present analyze
      (fetch_lyrics_single search t)
    rw [show (sentiment_branch_transform search analyze t).sentiment_score
        = some v from hv]
    exact mergeField_some v _

/-- A client-submitted track that already carries a (stale) `tempo` key. -/
def staleTrack : Track :=
  { title := some "S", artists := some ["A"],
    track_id := some (some "idS"), preview_url := some (some "u"),
    tempo := some (some 999) }

/-- Counterexample to C1 as stated: when the input track already contains a
`tempo` key, the sentiment branch's copy of the track carries that stale
key, and, being applied last in the merge, clobbers the tempo branch's
freshly computed BPM — the tempo branch's write to the final track is
lost even though both branches produced a result. -/
theorem parallel_merge_counterexample :
    (bpm_branch_transform outcomeW finderW true 0 staleTrack).tempo
      = some (some 120)
    ∧ ((process_features_merge [staleTrack]
        (fun _ => some (bpm_branch_transform outcomeW finderW true 0
          staleTrack))
        (fun _ => some (sentiment_branch_transform searchW analyzeW
          staleTrack))).getD 0 emptyTrack).tempo
      = some (some 999)
    ∧ ¬ ((process_features_merge [staleTrack]
        (fun _ => some (bpm_branch_transform outcomeW finderW true 0
          staleTrack))
        (fun _ => some (sentiment_branch_transform searchW analyzeW
          staleTrack))).getD 0 emptyTrack).tempo
      = (bpm_branch_transform outcomeW finderW true 0 staleTrack).tempo := by
  refine ⟨rfl, rfl, fun hcontra => ?_⟩
  rw [show ((process_features_merge [staleTrack]
      (fun _ => some (bpm_branch_transform outcomeW finderW true 0 staleTrack))
      (fun _ => some (sentiment_branch_transform searchW analyzeW
        staleTrack))).getD 0 emptyTrack).tempo = some (some 999) from rfl,
    show (bpm_branch_transform outcomeW finderW true 0 staleTrack).tempo
      = some (some 120) from rfl] at hcontra
  simp only [Option.some.injEq] at hcontra
  exact absurd hcontra (by norm_num)

/-- Witness for the amended C1 at concrete inputs: `wt0` has no `tempo`
key, so the merged track keeps the tempo branch's BPM together with the
sentiment branch's lyrics and score. -/
theorem parallel_branch_merge_safety_witness :
    ∃ e, (process_features_merge [wt0]
        (fun _ => some (bpm_branch_transform outcomeW finderW true 0 wt0))
        (fun _ => some (sentiment_branch_transform searchW analyzeW
          wt0))).get? 0 = some e
      ∧ e.tempo = (bpm_branch_transform outcomeW finderW true 0 wt0).tempo
      ∧ e.audio_features_error
          = (bpm_branch_transform outcomeW finderW true 0
              wt0).audio_features_error
      ∧ e.lyrics = (sentiment_branch_transform searchW analyzeW wt0).lyrics
      ∧ e.sentiment_score
          = (sentiment_branch_transform searchW analyzeW
              wt0).sentiment_score := by
  exact parallel_branch_merge_safety outcomeW finderW true searchW analyzeW
    [wt0] _ _ 0 wt0 (by decide) rfl rfl rfl rfl

/-! ## C5-C7: the normalization pass -/

/-- Evaluation rule for `npPercentile` given the sorted list and the floor
of the interpolation position. -/
theorem npPercentile_eval (p : ℝ) (l s : List ℝ) (k : ℕ)
    (hsort : l.insertionSort (· ≤ ·) = s)
    (hk : ⌊p / 100 * ((l.length : ℝ) - 1)⌋ = (k : ℤ)) :
    npPercentile p l
      = s.getD k 0 + (p / 100 * ((l.length : ℝ) - 1) - (k : ℝ))
          * (s.getD (k + 1) (s.getD k 0) - s.getD k 0) := by
  unfold npPercentile
  dsimp only
  rw [hsort, hk, Int.toNat_natCast]

/-- The branch of `normalize_sentiment_scores` taken when at least two
scores are present and the IQR is not degenerate. -/
theorem normalize_sentiment_scores_main_branch (tracks : List Track)
    (h2 : 2 ≤ (sentimentScores tracks).length)
    (hiqr : 1e-6 ≤ iqrOf (sentimentScores tracks)) :
    normalize_sentiment_scores tracks
      = tracks.map (fun track =>
          match getScore track with
          | some s =>
              { track with
                  raw_sentiment := some s,
                  normalized_sentiment := some (1 / (1 + Real.exp
                    (-((s - npMedian (sentimentScores tracks))
                      / iqrOf (sentimentScores tracks))))),
                  sentiment_score := some (some (1 / (1 + Real.exp
                    (-((s - npMedian (sentimentScores tracks))
                      / iqrOf (sentimentScores tracks)))))) }
          | none => track) := by
  unfold normalize_sentiment_scores
  dsimp only
  rw [if_neg (not_lt.2 h2), if_neg (not_lt.2 hiqr)]

/-- C5: with at least two present scores and a non-degenerate IQR, each
present score `s` is replaced by the logistic squashing
`1/(1+e^{-(s-median)/IQR})`; a score equal to the median maps to exactly
`1/2`; the squashed value is monotone non-decreasing in the raw score; and
tracks with an absent score are unchanged. -/
theorem normalization_formula (tracks : List Track)
    (h2 : 2 ≤ (sentimentScores tracks).length)
    (hiqr : 1e-6 ≤ iqrOf (sentimentScores tracks)) :
    (∀ i t s, tracks.get? i = some t → getScore t = some s →
      (normalize_sentiment_scores tracks).get? i
        = some { t with
            raw_sentiment := some s,
            normalized_sentiment := some (1 / (1 + Real.exp
              (-((s - npMedian (sentimentScores tracks))
                / iqrOf (sentimentScores tracks))))),
            sentiment_score := some (some (1 / (1 + Real.exp
              (-((s - npMedian (sentimentScores tracks))
                / iqrOf (sentimentScores tracks)))))) })
    ∧ (∀ s : ℝ, s = npMedian (sentimentScores tracks) →
        1 / (1 + Real.exp (-((s - npMedian (sentimentScores tracks))
          / iqrOf (sentimentScores tracks)))) = 1 / 2)
    ∧ (∀ s s' : ℝ, s ≤ s' →
        1 / (1 + Real.exp (-((s - npMedian (sentimentScores tracks))
          / iqrOf (sentimentScores tracks))))
          ≤ 1 / (1 + Real.exp (-((s' - npMedian (sentimentScores tracks))
            / iqrOf (sentimentScores tracks)))))
    ∧ (∀ i t, tracks.get? i = some t → getScore t = none →
        (normalize_sentiment_scores tracks).get? i = some t) := by
  have hbranch := normalize_sentiment_scores_main_branch tracks h2 hiqr
  have hiqrpos : (0 : ℝ) < iqrOf (sentimentScores tracks) :=
    lt_of_lt_of_le (by norm_num) hiqr
  refine ⟨?_, ?_, ?_, ?_⟩
  · intro i t s ht hsc
    rw [List.get?_eq_getElem?] at ht
    rw [hbranch, List.get?_eq_getElem?, List.getElem?_map, ht]
    simp only [Option.map_some', hsc]
  · intro s hs
    rw [hs, sub_self, zero_div, neg_zero, Real.exp_zero]
    norm_num
  · intro s s' hss
    have hz : (s - npMedian (sentimentScores tracks))
        / iqrOf (sentimentScores tracks)
        ≤ (s' - npMedian (sentimentScores tracks))
          / iqrOf (sentimentScores tracks) :=
      (div_le_div_iff_of_pos_right hiqrpos).2 (sub_le_sub_right hss _)
    have hexp : Real.exp (-((s' - npMedian (sentimentScores tracks))
        / iqrOf (sentimentScores tracks)))
        ≤ Real.exp (-((s - npMedian (sentimentScores tracks))
          / iqrOf (sentimentScores tracks))) :=
      Real.exp_le_exp.2 (neg_le_neg hz)
    have hpos : (0 : ℝ) < 1 + Real.exp (-((s' - npMedian
        (sentimentScores tracks)) / iqrOf (sentimentScores tracks))) := by
      positivity
    exact one_div_le_one_div_of_le hpos (by linarith)
  · intro i t ht hsc
    rw [List.get?_eq_getElem?] at ht
    rw [hbranch, List.get?_eq_getElem?, List.getElem?_map, ht]
    simp only [Option.map_some', hsc]

/-- Three tracks with sentiment scores 0.2, 0.5, 0.8. -/
noncomputable def nt1 : Track :=
  { title := some "n1", sentiment_score := some (some (1/5)) }

noncomputable def nt2 : Track :=
  { title := some "n2", sentiment_score := some (some (1/2)) }

noncomputable def nt3 : Track :=
  { title := some "n3", sentiment_score := some (some (4/5)) }

noncomputable def tracks3 : List Track := [nt1, nt2, nt3]

theorem tracks3_scores : sentimentScores tracks3 = [1/5, 1/2, 4/5] := rfl

theorem tracks3_median : npMedian (sentimentScores tracks3) = 1/2 := by
  rw [tracks3_scores]
  unfold npMedian
  dsimp only
  rw [show List.insertionSort (· ≤ ·) [(1:ℝ)/5, 1/2, 4/5] = [1/5, 1/2, 4/5]
    from by norm_num [List.insertionSort, List.orderedInsert]]
  norm_num [List.getD]

theorem tracks3_iqr : iqrOf (sentimentScores tracks3) = 3/10 := by
  rw [tracks3_scores]
  unfold iqrOf
  rw [npPercentile_eval 75 _ [(1:ℝ)/5, 1/2, 4/5] 1
      (by norm_num [List.insertionSort, List.orderedInsert])
      (by rw [Int.floor_eq_iff]; norm_num),
    npPercentile_eval 25 _ [(1:ℝ)/5, 1/2, 4/5] 0
      (by norm_num [List.insertionSort, List.orderedInsert])
      (by rw [Int.floor_eq_iff]; norm_num)]
  norm_num [List.getD]

/-- Witness for C5 on scores [0.2, 0.5, 0.8]: the median 0.5 normalizes to
exactly 0.5, and normalization is monotone from 0.2 to 0.8. -/
theorem normalization_formula_witness :
    (normalize_sentiment_scores tracks3).get? 1
      = some { nt2 with raw_sentiment := some (1/2),
                        normalized_sentiment := some (1/2),
                        sentiment_score := some (some (1/2)) }
    ∧ 1 / (1 + Real.exp (-(((1:ℝ)/5 - npMedian (sentimentScores tracks3))
        / iqrOf (sentimentScores tracks3))))
      ≤ 1 / (1 + Real.exp (-(((4:ℝ)/5 - npMedian (sentimentScores tracks3))
        / iqrOf (sentimentScores tracks3)))) := by
  have h2 : 2 ≤ (sentimentScores tracks3).length := by
    rw [tracks3_scores]; norm_num
  have hiqr : 1e-6 ≤ iqrOf (sentimentScores tracks3) := by
    rw [tracks3_iqr]; norm_num
  have h := normalization_formula tracks3 h2 hiqr
  have hval := h.2.1 (1/2) tracks3_median.symm
  have h1 := h.1 1 nt2 (1/2) rfl rfl
  rw [hval] at h1
  exact ⟨h1, h.2.2.1 (1/5) (4/5) (by norm_num)⟩

/-- C6: with at least two present scores and a degenerate IQR (< 1e-6),
every present score collapses to the constant 0.5 (in both
`sentiment_score` and `normalized_sentiment`), keeping the original in
`raw_sentiment`; tracks with an absent score are unchanged. -/
theorem normalization_degenerate (tracks : List Track)
    (h2 : 2 ≤ (sentimentScores tracks).length)
    (hdeg : iqrOf (sentimentScores tracks) < 1e-6) :
    (∀ i t s, tracks.get? i = some t → getScore t = some s →
      (normalize_sentiment_scores tracks).get? i
        = some { t with raw_sentiment := some s,
                        normalized_sentiment := some (1/2),
                        sentiment_score := some (some (1/2)) })
    ∧ (∀ i t, tracks.get? i = some t → getScore t = none →
        (normalize_sentiment_scores tracks).get? i = some t) := by
  have hbranch : normalize_sentiment_scores tracks
      = tracks.map (fun track =>
          match getScore track with
          | some s =>
              { track with raw_sentiment := some s,
                           normalized_sentiment := some (1/2),
                           sentiment_score := some (some (1/2)) }
          | none => track) := by
    unfold normalize_sentiment_scores
    dsimp only
    rw [if_neg (not_lt.2 h2), if_pos hdeg]
  constructor
  · intro i t s ht hsc
    rw [List.get?_eq_getElem?] at ht
    rw [hbranch, List.get?_eq_getElem?, List.getElem?_map, ht]
    simp only [Option.map_some', hsc]
  · intro i t ht hsc
    rw [List.get?_eq_getElem?] at ht
    rw [hbranch, List.get?_eq_getElem?, List.getElem?_map, ht]
    simp only [Option.map_some', hsc]

/-- Two tracks with the identical score 0.6. -/
noncomputable def dt1 : Track :=
  { title := some "d1", sentiment_score := some (some (3/5)) }

noncomputable def dt2 : Track :=
  { title := some "d2", sentiment_score := some (some (3/5)) }

noncomputable def tracksDeg : List Track := [dt1, dt2]

theorem tracksDeg_iqr : iqrOf (sentimentScores tracksDeg) = 0 := by
  rw [show sentimentScores tracksDeg = [3/5, 3/5] from rfl]
  unfold iqrOf
  rw [npPercentile_eval 75 _ [(3:ℝ)/5, 3/5] 0
      (by norm_num [List.insertionSort, List.orderedInsert])
      (by rw [Int.floor_eq_iff]; norm_num),
    npPercentile_eval 25 _ [(3:ℝ)/5, 3/5] 0
      (by norm_num [List.insertionSort, List.orderedInsert])
      (by rw [Int.floor_eq_iff]; norm_num)]
  norm_num [List.getD]

/-- Witness for C6 on scores [0.6, 0.6] (IQR = 0): both normalized outputs
equal 0.5. -/
theorem normalization_degenerate_witness :
    (normalize_sentiment_scores tracksDeg).get? 0
      = some { dt1 with raw_sentiment := some (3/5),
                        normalized_sentiment := some (1/2),
                        sentiment_score := some (some (1/2)) }
    ∧ (normalize_sentiment_scores tracksDeg).get? 1
      = some { dt2 with raw_sentiment := some (3/5),
                        normalized_sentiment := some (1/2),
                        sentiment_score := some (some (1/2)) } := by
  have h2 : 2 ≤ (sentimentScores tracksDeg).length := by
    rw [show sentimentScores tracksDeg = [3/5, 3/5] from rfl]; norm_num
  have hdeg : iqrOf (sentimentScores tracksDeg) < 1e-6 := by
    rw [tracksDeg_iqr]; norm_num
  have h := normalization_degenerate tracksDeg h2 hdeg
  exact ⟨h.1 0 dt1 (3/5) rfl rfl, h.1 1 dt2 (3/5) rfl rfl⟩

/-- C7: with fewer than two present scores, `normalize_sentiment_scores`
returns the track list unchanged. -/
theorem normalization_small_sample_noop (tracks : List Track)
    (h : (sentimentScores tracks).length < 2) :
    normalize_sentiment_scores tracks = tracks := by
  unfold normalize_sentiment_scores
  dsimp only
  rw [if_pos h]

/-- One scored track among an unscored one. -/
def singleScoreTracks : List Track :=
  [{ title := some "s1", sentiment_score := some (some 1) },
   { title := some "s2" }]

/-- Witness for C7: a collection with a single present score is returned
unchanged. -/
theorem normalization_small_sample_noop_witness :
    normalize_sentiment_scores singleScoreTracks = singleScoreTracks :=
  normalization_small_sample_noop singleScoreTracks
    (by rw [show sentimentScores singleScoreTracks = [1] from rfl]; norm_num)

/-! ## C4 and C8: the progress publisher -/

/-- Is this event a `track_update` with `field='tempo'` for `tid`? -/
def isTempoUpdateFor (tid : String) : Event → Bool
  | .tempo_update t _ _ => t == tid
  | _ => false

/-- Is this event a `track_update` with `field='sentiment'` for `tid`? -/
def isSentimentUpdateFor (tid : String) : Event → Bool
  | .sentiment_update t _ _ _ => t == tid
  | _ => false

/-- The track id an event reports about, if any. -/
def eventTrackId : Event → Option String
  | .tempo_update t _ _ => some t
  | .sentiment_update t _ _ _ => some t
  | _ => none

/-- Is this event the terminal `complete_data` payload (the only event kind
that carries an `output_file` member)? -/
def isFinalEvent : Event → Bool
  | .progress _ _ _ _ _ _ (some _) => true
  | _ => false

/-- Indicator (zero or one) of membership in a sent-set. -/
def ind (b : Prop) [Decidable b] : ℕ := if b then 1 else 0

theorem bpmCheck_spec (tid : String) (t : Track) (st : PubState)
    (x : String) :
    List.countP (isTempoUpdateFor x) (bpmCheck tid t st).1
        + ind (x ∈ st.bpmSent) = ind (x ∈ (bpmCheck tid t st).2.bpmSent)
    ∧ List.countP (isSentimentUpdateFor x) (bpmCheck tid t st).1 = 0
    ∧ (bpmCheck tid t st).2.sentimentSent = st.sentimentSent := by
  unfold bpmCheck
  split
  · simp [ind]
  · rename_i hmem
    dsimp only
    split
    · refine ⟨?_, by simp [List.countP_cons, isSentimentUpdateFor], rfl⟩
      by_cases hx : x = tid
      · subst hx
        simp [List.countP_cons, isTempoUpdateFor, ind, hmem]
      · simp [List.countP_cons, isTempoUpdateFor, ind,
          show ¬(tid = x) from fun hc => hx hc.symm,
          List.mem_cons, hx]
    · simp [ind]

theorem sentimentCheck_spec (tid : String) (t : Track) (st : PubState)
    (x : String) :
    List.countP (isSentimentUpdateFor x) (sentimentCheck tid t st).1
        + ind (x ∈ st.sentimentSent)
        = ind (x ∈ (sentimentCheck tid t st).2.sentimentSent)
    ∧ List.countP (isTempoUpdateFor x) (sentimentCheck tid t st).1 = 0
    ∧ (sentimentCheck tid t st).2.bpmSent = st.bpmSent := by
  unfold sentimentCheck
  split
  · simp [ind]
  · rename_i hmem
    dsimp only
    split
    · refine ⟨?_, by simp [List.countP_cons, isTempoUpdateFor], rfl⟩
      by_cases hx : x = tid
      · subst hx
        simp [List.countP_cons, isSentimentUpdateFor, ind, hmem]
      · simp [List.countP_cons, isSentimentUpdateFor, ind,
          show ¬(tid = x) from fun hc => hx hc.symm,
          List.mem_cons, hx]
    · simp [ind]

theorem scan_tracks_spec (tracks : List Track) (st : PubState) (x : String) :
    List.countP (isTempoUpdateFor x) (scan_tracks tracks st).1
        + ind (x ∈ st.bpmSent) = ind (x ∈ (scan_tracks tracks st).2.bpmSent)
    ∧ List.countP (isSentimentUpdateFor x) (scan_tracks tracks st).1
        + ind (x ∈ st.sentimentSent)
        = ind (x ∈ (scan_tracks tracks st).2.sentimentSent) := by
  induction tracks generalizing st with
  | nil => simp [scan_tracks]
  | cons t rest ih =>
      unfold scan_tracks
      cases hid : idOf t with
      | none => exact ih st
      | some tid =>
          dsimp only
          have hb := bpmCheck_spec tid t st x
          have hsc := sentimentCheck_spec tid t (bpmCheck tid t st).2 x
          have hr := ih (sentimentCheck tid t (bpmCheck tid t st).2).2
          constructor
          · rw [List.countP_append, List.countP_append]
            have e1 := hb.1
            have e2 := hsc.2.1
            have e3 := hr.1
            rw [hsc.2.2] at e3
            omega
          · rw [List.countP_append, List.countP_append]
            have e1 := hb.2.1
            have e2 := hsc.1
            have e3 := hr.2
            rw [hb.2.2] at e2
            omega

theorem ind_le_one (b : Prop) [Decidable b] : ind b ≤ 1 := by
  unfold ind
  split <;> omega

theorem progress_events_spec (p : Progress) (st : PubState) (x : String) :
    List.countP (isTempoUpdateFor x) (progress_events p st).1 = 0
    ∧ List.countP (isSentimentUpdateFor x) (progress_events p st).1 = 0
    ∧ (progress_events p st).2.bpmSent = st.bpmSent
    ∧ (progress_events p st).2.sentimentSent = st.sentimentSent
    ∧ ∀ e ∈ (progress_events p st).1,
        isFinalEvent e = false ∧ eventTrackId e = none := by
  unfold progress_events
  split
  · refine ⟨by simp [List.countP_cons, isTempoUpdateFor],
      by simp [List.countP_cons, isSentimentUpdateFor], rfl, rfl, ?_⟩
    intro e he
    simp only [List.mem_singleton] at he
    subst he
    exact ⟨rfl, rfl⟩
  · split
    · refine ⟨by simp [List.countP_cons, isTempoUpdateFor],
        by simp [List.countP_cons, isSentimentUpdateFor], rfl, rfl, ?_⟩
      intro e he
      simp only [List.mem_singleton] at he
      subst he
      exact ⟨rfl, rfl⟩
    · refine ⟨by simp, by simp, rfl, rfl, ?_⟩
      intro e he
      simp at he

theorem stream_iteration_spec (p : Progress) (st : PubState) (x : String) :
    List.countP (isTempoUpdateFor x) (stream_iteration p st).1
        + ind (x ∈ st.bpmSent)
        = ind (x ∈ (stream_iteration p st).2.1.bpmSent)
    ∧ List.countP (isSentimentUpdateFor x) (stream_iteration p st).1
        + ind (x ∈ st.sentimentSent)
        = ind (x ∈ (stream_iteration p st).2.1.sentimentSent) := by
  have h1 := scan_tracks_spec p.tracks st x
  have h2 := progress_events_spec p (scan_tracks p.tracks st).2 x
  have hfin1 : List.countP (isTempoUpdateFor x) [finalEvent p] = 0 := by
    simp [List.countP_cons, isTempoUpdateFor, finalEvent]
  have hfin2 : List.countP (isSentimentUpdateFor x) [finalEvent p] = 0 := by
    simp [List.countP_cons, isSentimentUpdateFor, finalEvent]
  unfold stream_iteration
  dsimp only
  split
  · constructor
    · rw [List.countP_append, List.countP_append]
      rw [show ((progress_events p
          (scan_tracks p.tracks st).2).2, true).1.bpmSent
          = (scan_tracks p.tracks st).2.bpmSent from h2.2.2.1]
      omega
    · rw [List.countP_append, List.countP_append]
      rw [show ((progress_events p
          (scan_tracks p.tracks st).2).2, true).1.sentimentSent
          = (scan_tracks p.tracks st).2.sentimentSent from h2.2.2.2.1]
      omega
  · constructor
    · rw [List.countP_append]
      rw [show ((progress_events p
          (scan_tracks p.tracks st).2).2, false).1.bpmSent
          = (scan_tracks p.tracks st).2.bpmSent from h2.2.2.1]
      omega
    · rw [List.countP_append]
      rw [show ((progress_events p
          (scan_tracks p.tracks st).2).2, false).1.sentimentSent
          = (scan_tracks p.tracks st).2.sentimentSent from h2.2.2.2.1]
      omega

theorem stream_progress_count (snaps : List (Option Progress)) (st : PubState)
    (x : String) :
    List.countP (isTempoUpdateFor x) (stream_progress snaps st)
        + ind (x ∈ st.bpmSent) ≤ 1
    ∧ List.countP (isSentimentUpdateFor x) (stream_progress snaps st)
        + ind (x ∈ st.sentimentSent) ≤ 1 := by
  induction snaps generalizing st with
  | nil =>
      constructor <;>
        simpa [stream_progress] using ind_le_one _
  | cons snap rest ih =>
      cases snap with
      | none =>
          constructor <;>
            · have := ind_le_one (x ∈ st.bpmSent)
              have := ind_le_one (x ∈ st.sentimentSent)
              simp only [stream_progress, List.countP_cons, List.countP_nil,
                isTempoUpdateFor, isSentimentUpdateFor, Bool.false_eq_true,
                if_false]
              omega
      | some p =>
          have hi := stream_iteration_spec p st x
          have hb1 := ind_le_one
            (x ∈ (stream_iteration p st).2.1.bpmSent)
          have hb2 := ind_le_one
            (x ∈ (stream_iteration p st).2.1.sentimentSent)
          have htail := ih (stream_iteration p st).2.1
          unfold stream_progress
          dsimp only
          split
          · exact ⟨by omega, by omega⟩
          · rw [List.countP_append, List.countP_append]
            exact ⟨by omega, by omega⟩

theorem bpmCheck_mem (tid : String) (t : Track) (st : PubState) :
    ∀ e ∈ (bpmCheck tid t st).1,
      e = Event.tempo_update tid t.tempo.join t.audio_features_error.join := by
  unfold bpmCheck
  split
  · intro e he; simp at he
  · dsimp only
    split
    · intro e he
      simp only [List.mem_singleton] at he
      exact he
    · intro e he; simp at he

theorem sentimentCheck_mem (tid : String) (t : Track) (st : PubState) :
    ∀ e ∈ (sentimentCheck tid t st).1,
      e = Event.sentiment_update tid t.sentiment_score.join
            t.sentiment_label.join t.sentiment_error.join := by
  unfold sentimentCheck
  split
  · intro e he; simp at he
  · dsimp only
    split
    · intro e he
      simp only [List.mem_singleton] at he
      exact he
    · intro e he; simp at he

/-- Every event the scan loop emits reports on a track of the scanned list
that carries a truthy id, and no scan event is a final event. -/
theorem scan_tracks_mem (tracks : List Track) (st : PubState) :
    ∀ e ∈ (scan_tracks tracks st).1, ∃ t ∈ tracks, ∃ tid,
      idOf t = some tid ∧ eventTrackId e = some tid
      ∧ isFinalEvent e = false := by
  induction tracks generalizing st with
  | nil => intro e he; simp [scan_tracks] at he
  | cons t rest ih =>
      unfold scan_tracks
      cases hid : idOf t with
      | none =>
          intro e he
          obtain ⟨u, hu, tid, h1, h2, h3⟩ := ih st e he
          exact ⟨u, List.mem_cons_of_mem t hu, tid, h1, h2, h3⟩
      | some tid =>
          dsimp only
          intro e he
          rw [List.mem_append, List.mem_append] at he
          rcases he with (he | he) | he
          · rw [bpmCheck_mem tid t st e he]
            exact ⟨t, List.mem_cons_self t rest, tid, hid, rfl, rfl⟩
          · rw [sentimentCheck_mem tid t _ e he]
            exact ⟨t, List.mem_cons_self t rest, tid, hid, rfl, rfl⟩
          · obtain ⟨u, hu, tid', h1, h2, h3⟩ := ih _ e he
            exact ⟨u, List.mem_cons_of_mem t hu, tid', h1, h2, h3⟩

/-- Every `track_update` event of the whole stream reports on a track with
that id appearing in some observed snapshot. -/
theorem stream_progress_mem (snaps : List (Option Progress)) (st : PubState)
    (tid : String) :
    ∀ e ∈ stream_progress snaps st, eventTrackId e = some tid →
      ∃ p, some p ∈ snaps ∧ ∃ t ∈ p.tracks, idOf t = some tid := by
  induction snaps generalizing st with
  | nil => intro e he; simp [stream_progress] at he
  | cons snap rest ih =>
      cases snap with
      | none =>
          intro e he hid
          simp only [stream_progress, List.mem_singleton] at he
          subst he
          simp [eventTrackId] at hid
      | some p =>
          have hscan := scan_tracks_mem p.tracks st
          have hprog := progress_events_spec p (scan_tracks p.tracks st).2 tid
          intro e he hid
          have hiter : ∀ e ∈ (stream_iteration p st).1,
              eventTrackId e = some tid →
              ∃ t ∈ p.tracks, idOf t = some tid := by
            intro e he hid
            unfold stream_iteration at he
            dsimp only at he
            have hcase : e ∈ (scan_tracks p.tracks st).1
                ∨ e ∈ (progress_events p (scan_tracks p.tracks st).2).1
                ∨ e = finalEvent p := by
              split at he
              · rw [List.append_assoc, List.mem_append, List.mem_append,
                  List.mem_singleton] at he
                tauto
              · rw [List.mem_append] at he
                tauto
            rcases hcase with hc | hc | hc
            · obtain ⟨u, hu, tid', h1, h2, -⟩ := hscan e hc
              rw [hid] at h2
              cases Option.some.inj h2
              exact ⟨u, hu, h1⟩
            · have := (hprog.2.2.2.2 e hc).2
              rw [hid] at this
              exact absurd this (by simp)
            · subst hc
              simp [eventTrackId, finalEvent] at hid
          unfold stream_progress at he
          dsimp only at he
          split at he
          · obtain ⟨u, hu, h1⟩ := hiter e he hid
            exact ⟨p, List.mem_cons_self _ _, u, hu, h1⟩
          · rw [List.mem_append] at he
            rcases he with he | he
            · obtain ⟨u, hu, h1⟩ := hiter e he hid
              exact ⟨p, List.mem_cons_self _ _, u, hu, h1⟩
            · obtain ⟨q, hq, u, hu, h1⟩ := ih _ e he hid
              exact ⟨q, List.mem_cons_of_mem _ hq, u, hu, h1⟩

/-- C4: for any observed snapshot sequence of one job's stream, a
`track_update` event for a given `(track id, field)` pair is emitted at
most once over the whole life of the stream, and every `track_update`
event's id comes from a scanned track whose `track_id` is present and
truthy — a track with an absent id is never reported on. -/
theorem progress_publisher_at_most_once (snaps : List (Option Progress))
    (tid : String) :
    List.countP (isTempoUpdateFor tid) (stream_progress snaps initPubState) ≤ 1
    ∧ List.countP (isSentimentUpdateFor tid)
        (stream_progress snaps initPubState) ≤ 1
    ∧ ∀ e ∈ stream_progress snaps initPubState, eventTrackId e = some tid →
        ∃ p, some p ∈ snaps ∧ ∃ t ∈ p.tracks, idOf t = some tid := by
  have hc := stream_progress_count snaps initPubState tid
  have h0 : ind (tid ∈ initPubState.bpmSent) = 0 := rfl
  have h1 : ind (tid ∈ initPubState.sentimentSent) = 0 := rfl
  refine ⟨by omega, by omega, stream_progress_mem snaps initPubState tid⟩

/-- A mid-flight job snapshot: one track already has its BPM, one track has
no id at all. -/
def progW : Progress :=
  { stage := "processing", current := 0, total := 2, message := "m",
    tracks := [{ track_id := some (some "idA"), tempo := some (some 120),
                 audio_features_error := some none },
               { title := some "no-id" }],
    playlist_name := "pl", output_file := "" }

/-- Witness for C4: polling the same mid-flight snapshot twice emits the
tempo update for "idA" only once, and the update's id comes from a scanned
track. -/
theorem progress_publisher_at_most_once_witness :
    List.countP (isTempoUpdateFor "idA")
        (stream_progress [some progW, some progW] initPubState) ≤ 1
    ∧ ∃ p, some p ∈ [some progW, some progW]
        ∧ ∃ t ∈ p.tracks, idOf t = some "idA" := by
  have h := progress_publisher_at_most_once [some progW, some progW] "idA"
  have hmem : (Event.tempo_update "idA" (some 120) none)
      ∈ stream_progress [some progW, some progW] initPubState := by
    rw [show stream_progress [some progW, some progW] initPubState
      = [Event.tempo_update "idA" (some (120 : ℝ)) none,
         Event.progress "processing" 0 2 "m" (some progW.tracks) (some "pl")
           none] from rfl]
    exact List.mem_cons_self _ _
  exact ⟨h.1, h.2.2 _ hmem rfl⟩

/-! ## C8: stream termination -/

theorem stream_iteration_terminal (p : Progress) (st : PubState)
    (h : p.stage = "complete" ∨ p.stage = "error") :
    stream_iteration p st
      = ((scan_tracks p.tracks st).1
          ++ (progress_events p (scan_tracks p.tracks st).2).1
          ++ [finalEvent p],
         (progress_events p (scan_tracks p.tracks st).2).2, true) := by
  unfold stream_iteration
  dsimp only
  rw [if_pos h]

theorem stream_iteration_nonterminal (p : Progress) (st : PubState)
    (h : ¬(p.stage = "complete" ∨ p.stage = "error")) :
    stream_iteration p st
      = ((scan_tracks p.tracks st).1
          ++ (progress_events p (scan_tracks p.tracks st).2).1,
         (progress_events p (scan_tracks p.tracks st).2).2, false) := by
  unfold stream_iteration
  dsimp only
  rw [if_neg h]

/-- The events of one loop iteration before the terminal check are never
the final payload. -/
theorem iteration_events_nonfinal (p : Progress) (st : PubState) :
    ∀ e ∈ (scan_tracks p.tracks st).1
        ++ (progress_events p (scan_tracks p.tracks st).2).1,
      isFinalEvent e = false := by
  intro e he
  rw [List.mem_append] at he
  rcases he with he | he
  · obtain ⟨-, -, -, -, -, h3⟩ := scan_tracks_mem p.tracks st e he
    exact h3
  · exact ((progress_events_spec p (scan_tracks p.tracks st).2
      "").2.2.2.2 e he).1

theorem stream_progress_cons (p : Progress) (rest : List (Option Progress))
    (st : PubState) :
    stream_progress (some p :: rest) st
      = if (stream_iteration p st).2.2 then (stream_iteration p st).1
        else (stream_iteration p st).1
          ++ stream_progress rest (stream_iteration p st).2.1 := rfl

/-- C8: an unknown job id yields exactly one error event and the stream
stops (the generator never mutates the store); once a snapshot with a
terminal stage (`complete`/`error`) is polled after any run of
non-terminal snapshots, the stream ends with exactly one final event that
carries the complete track collection, and emits nothing afterwards
(whatever happens to the store later). -/
theorem stream_termination :
    (∀ (rest : List (Option Progress)) (st : PubState),
      stream_progress (none :: rest) st = [Event.jobError "Job not found"])
    ∧ (∀ (pre : List Progress) (p : Progress)
        (rest rest' : List (Option Progress)) (st : PubState),
        (∀ q ∈ pre, ¬(q.stage = "complete" ∨ q.stage = "error")) →
        (p.stage = "complete" ∨ p.stage = "error") →
        stream_progress (pre.map some ++ some p :: rest) st
          = stream_progress (pre.map some ++ some p :: rest') st
        ∧ ∃ evs, stream_progress (pre.map some ++ some p :: rest) st
            = evs ++ [finalEvent p]
          ∧ (∀ e ∈ evs, isFinalEvent e = false)
          ∧ finalEvent p
              = Event.progress p.stage p.current p.total p.message
                  (some p.tracks) (some p.playlist_name)
                  (some p.output_file)) := by
  constructor
  · intro rest st
    rfl
  · intro pre
    induction pre with
    | nil =>
        intro p rest rest' st hpre hterm
        have hiter := stream_iteration_terminal p st hterm
        constructor
        · show stream_progress (some p :: rest) st
            = stream_progress (some p :: rest') st
          rw [stream_progress_cons, stream_progress_cons, hiter]
          simp
        · refine ⟨(scan_tracks p.tracks st).1
            ++ (progress_events p (scan_tracks p.tracks st).2).1, ?_,
            iteration_events_nonfinal p st, rfl⟩
          show stream_progress (some p :: rest) st = _
          rw [stream_progress_cons, hiter]
          simp [List.append_assoc]
    | cons q pre ih =>
        intro p rest rest' st hpre hterm
        have hq : ¬(q.stage = "complete" ∨ q.stage = "error") :=
          hpre q (List.mem_cons_self q pre)
        have hiter := stream_iteration_nonterminal q st hq
        have hih := ih p rest rest'
          (progress_events q (scan_tracks q.tracks st).2).2
          (fun r hr => hpre r (List.mem_cons_of_mem q hr)) hterm
        have hexp : ∀ (tail : List (Option Progress)),
            stream_progress ((q :: pre).map some ++ some p :: tail) st
              = ((scan_tracks q.tracks st).1
                  ++ (progress_events q (scan_tracks q.tracks st).2).1)
                ++ stream_progress (pre.map some ++ some p :: tail)
                    (progress_events q (scan_tracks q.tracks st).2).2 := by
          intro tail
          show stream_progress
            (some q :: (pre.map some ++ some p :: tail)) st = _
          rw [stream_progress_cons, hiter]
          simp
        constructor
        · rw [hexp rest, hexp rest', hih.1]
        · obtain ⟨evs, heq, hnf, hfin⟩ := hih.2
          refine ⟨((scan_tracks q.tracks st).1
              ++ (progress_events q (scan_tracks q.tracks st).2).1) ++ evs,
            ?_, ?_, hfin⟩
          · rw [hexp rest, heq]
            simp [List.append_assoc]
          · intro e he
            rw [List.mem_append] at he
            rcases he with he | he
            · exact iteration_events_nonfinal q st e he
            · exact hnf e he

/-- A terminal job snapshot. -/
def doneProg : Progress :=
  { stage := "complete", current := 2, total := 2, message := "Complete",
    tracks := [{ track_id := some (some "idA"), tempo := some (some 120),
                 audio_features_error := some none }],
    playlist_name := "pl", output_file := "playlists/pl.json" }

/-- Witness for C8 at concrete inputs: an unknown-job stream and a stream
that reaches `complete` after one non-terminal poll. -/
theorem stream_termination_witness :
    stream_progress [none] initPubState = [Event.jobError "Job not found"]
    ∧ stream_progress ([progW].map some ++ some doneProg :: [some progW])
        initPubState
      = stream_progress ([progW].map some ++ some doneProg :: [])
          initPubState
    ∧ ∃ evs, stream_progress ([progW].map some ++ some doneProg
          :: [some progW]) initPubState
        = evs ++ [finalEvent doneProg]
      ∧ (∀ e ∈ evs, isFinalEvent e = false)
      ∧ finalEvent doneProg
          = Event.progress doneProg.stage doneProg.current doneProg.total
              doneProg.message (some doneProg.tracks)
              (some doneProg.playlist_name) (some doneProg.output_file) := by
  have h := stream_termination
  have h2 := h.2 [progW] doneProg [some progW] [] initPubState
    (by intro q hq
        simp only [List.mem_singleton] at hq
        subst hq
        decide)
    (Or.inl rfl)
  exact ⟨h.1 [] initPubState, h2.1, h2.2⟩
